import Mathlib

/-!
# tick: a terminal metronome (src/main.go)

A shallow embedding of the Bubble Tea model of src/main.go and of its
Update function, followed by theorems about the tempo state, the tap-tempo
window, the beat counter and the screen/selection state machine.

Conventions of the embedding.

* Go int fields (bpm, beat, the time signature, widths, the element enum)
  are Lean integers; int is taken to be 64 bits wide, so the conversions
  between int and time.Duration are the identity.  The increment of the beat
  (line 301) wraps around like the machine addition.  The other int fields
  (bpm, the time signature, the selection) move by one per message and stay
  far inside the 64-bit range in every run, so the arithmetic on them is
  exact.
* time.Duration is an int64 count of nanoseconds.  Sums of durations wrap
  around modulo 2^64 (wrap64), because a saturated delta does overflow the
  window sum; Go division and remainder truncate toward zero (Int.tdiv,
  Int.tmod).
* time.Time is the number of nanoseconds elapsed since the zero Time
  (January 1, year 1, 00:00:00 UTC); the zero value of a time.Time field is 0.
  The clock reading of one Update call is an explicit argument (now).
* progress.Model and help.Model are library values: only the fields that
  main.go reads or writes (Width, ShowAll) are kept.
* The shared *time.Ticker is a resource outside the model value: commands
  act on it, Update never does.
-/

/-! ## Constants and basic types -/

/-- Nanoseconds, as in time.Duration (int64). -/
abbrev Duration := Int

/-- Nanoseconds elapsed since the zero time.Time. -/
abbrev Time := Int

/-- Line 22: padding = 2. -/
def padding : Int := 2

/-- Line 23: maxWidth = 80. -/
def maxWidth : Int := 80

/-- Line 24: tapsLength = 4. -/
def tapsLength : Int := 4

/-- Line 25: maxBpm = 240. -/
def maxBpm : Int := 240

/-- One millisecond, time.Millisecond. -/
def Millisecond : Duration := 1000000

/-- One second, time.Second. -/
def Second : Duration := 1000000000

/-- One minute, time.Minute. -/
def Minute : Duration := 60000000000

/-- Largest int64, the largest time.Duration. -/
def maxDuration : Duration := 9223372036854775807

/-- Smallest int64, the smallest time.Duration. -/
def minDuration : Duration := -9223372036854775808

/-- Wrap-around of an int64 result, modulo 2^64. -/
def wrap64 (x : Int) : Int :=
  (x + 9223372036854775808) % 18446744073709551616 - 9223372036854775808

/-- The library call time.Since(t) at clock reading now: now.Sub(t), which
saturates at the largest and smallest Duration. -/
def timeSince (now t : Time) : Duration :=
  if now - t > maxDuration then maxDuration
  else if now - t < minDuration then minDuration
  else now - t

/-- Lines 158-163: type screen, mainScreen = 0 and settingsScreen = 1. -/
inductive screen where
  | mainScreen
  | settingsScreen
  deriving DecidableEq

/-- Line 165: type element int. -/
abbrev element := Int

/-- Line 168. -/
def noneElement : element := 0

/-- Line 169. -/
def timeSignatureTopElement : element := 1

/-- Line 170. -/
def timeSignatureBottomElement : element := 2

/-- Line 171. -/
def bpmElement : element := 3

/-- Line 172. -/
def numberOfElement : element := 4

/-- Lines 28-43: the model struct.  The ticker field is a pointer to the
shared Ticker and never changes; it is not part of the value. -/
structure model where
  bpm : Int
  timeSignatureTop : Int
  timeSignatureBottom : Int
  beat : Int
  progressWidth : Int
  screen : screen
  helpShowAll : Bool
  helpWidth : Int
  selected : element
  metronomeOn : Bool
  tapsAverage : List Duration
  lastTap : Time
  deriving DecidableEq

/-- Lines 50-60: initialModel.  Fields not listed there take their zero
value: selected = noneElement, the tap window is four zero durations,
lastTap is the zero Time.  progress.New and help.New start with Width 40 and
0 and the short help. -/
def initialModel : model :=
  { bpm := 60
    timeSignatureTop := 4
    timeSignatureBottom := 4
    beat := 0
    progressWidth := 40
    screen := screen.mainScreen
    helpShowAll := false
    helpWidth := 0
    selected := 0
    metronomeOn := true
    tapsAverage := [0, 0, 0, 0]
    lastTap := 0 }

/-- The key classes that Update distinguishes (msg.String() and
key.Matches against mainKeyMap and settingsKeyMap, lines 90-156):
ctrl+c; esc; s or S; ?; space; t or T; tab; up or k; down or j; any other
key. -/
inductive Key where
  | ctrlC
  | escape
  | edit
  | help
  | space
  | tap
  | tab
  | up
  | down
  | other
  deriving DecidableEq

/-- The messages Update switches on (lines 68-70, 199-337); other stands
for any message of another type.  A frame message carries what the progress
bar decides about it: accepted is true when the frame belongs to the current
animation and the bar is still moving, false when the frame is stale or the
bar has settled. -/
inductive Msg where
  | key (k : Key)
  | metronomeTick
  | windowSize (width : Int)
  | screenChange (s : screen)
  | tick
  | frame (accepted : Bool)
  | other
  deriving DecidableEq

/-- The commands Update returns.  stopTicker, updateTicker and
metronomeTicker are method values: they carry the copy of the receiver made
when the method value m.stopTickerCmd (etc.) is evaluated. -/
inductive Cmd where
  | none
  | quit
  | screenChange (s : screen)
  | stopTicker (m : model)
  | updateTicker (m : model)
  | metronomeTicker (m : model)
  | tick
  | tickAndProgress
  | progressFrame
  deriving DecidableEq

/-! ## The shared ticker and the commands acting on it -/

/-- The state of the shared time.Ticker: armed or stopped, and its period. -/
structure Ticker where
  running : Bool
  period : Duration
  deriving DecidableEq

/-- Line 58: time.NewTicker(time.Minute / 60). -/
def initialTicker : Ticker := { running := true, period := Int.tdiv Minute 60 }

/-- Library call Ticker.Reset(d): panics on a non-positive period. -/
def Ticker.Reset (_tk : Ticker) (d : Duration) : Option Ticker :=
  if d ≤ 0 then Option.none else some { running := true, period := d }

/-- Library call Ticker.Stop(). -/
def Ticker.Stop (tk : Ticker) : Ticker := { tk with running := false }

/-- Lines 398-402: updateTickerCmd, a method with a value receiver.  The
result is the receiver copy as the body leaves it, the ticker, and the
returned message (nil).  A zero bpm is an integer division by zero. -/
def updateTickerCmd (m : model) (tk : Ticker) : Option (model × Ticker × Option Msg) :=
  if m.bpm = 0 then Option.none
  else
    match tk.Reset (Int.tdiv Minute m.bpm) with
    | Option.none => Option.none
    | some tk1 => some ({ m with metronomeOn := true }, tk1, Option.none)

/-- Lines 404-408: stopTickerCmd, a method with a value receiver. -/
def stopTickerCmd (m : model) (tk : Ticker) : model × Ticker × Option Msg :=
  ({ m with metronomeOn := false }, tk.Stop, Option.none)

/-- Lines 379-383: screenChangeCmd(screen) returns screenChangeMsg(screen). -/
def screenChangeCmd (s : screen) : Msg := Msg.screenChange s

/-- What the runtime gets from running a command: the effect on the shared
ticker and the messages that are then delivered to Update.  The receiver
copy of a method value is local to the command and is dropped.  The audio
playback of metronomeTickerCmd and the animation of the progress bar are not
modelled; a stopped ticker delivers no tick.  A frame requested from the
progress bar is delivered as a frame of the current animation; one that has
gone stale by the time it is handled is the message Msg.frame false. -/
def Cmd.run (c : Cmd) (tk : Ticker) : Option (Ticker × List Msg) :=
  match c with
  | Cmd.none => some (tk, [])
  | Cmd.quit => some (tk, [])
  | Cmd.screenChange s => some (tk, [screenChangeCmd s])
  | Cmd.stopTicker m => some ((stopTickerCmd m tk).2.1, [])
  | Cmd.updateTicker m =>
    match updateTickerCmd m tk with
    | Option.none => Option.none
    | some r => some (r.2.1, [])
  | Cmd.metronomeTicker _ => some (tk, if tk.running then [Msg.metronomeTick] else [])
  | Cmd.tick => some (tk, [Msg.tick])
  | Cmd.tickAndProgress => some (tk, [Msg.tick, Msg.frame true])
  | Cmd.progressFrame => some (tk, [Msg.frame true])

/-! ## Update -/

/-- Lines 240-247, one iteration of the range loop at index iv.1 with
value iv.2.  The value comes from the array as it was when the loop began;
at index i the slot has not been written by an earlier iteration. -/
def tapLoopStep (since : Duration) (acc : List Duration × Duration)
    (iv : Nat × Duration) : List Duration × Duration :=
  let taps :=
    if (acc.1.length : Int) - 1 = (iv.1 : Int) then acc.1.set iv.1 since
    else acc.1.set iv.1 (acc.1.getD (iv.1 + 1) 0)
  (taps, wrap64 (acc.2 + iv.2))

/-- Lines 239-247: the whole range loop; returns the shifted window and avg. -/
def tapLoop (since : Duration) (taps : List Duration) : List Duration × Duration :=
  taps.enum.foldl (tapLoopStep since) (taps, 0)

/-- Outcome of the first key switch (lines 207-257): a return statement, or
control reaching line 258 with the model as modified so far. -/
inductive KeyFlow where
  | ret (m : model) (c : Cmd)
  | next (m : model)
  deriving DecidableEq

/-- Lines 238-257: the Tap case. -/
def tapCase (now : Time) (m : model) : KeyFlow :=
  let r := tapLoop (timeSince now m.lastTap) m.tapsAverage
  let m1 : model := { m with tapsAverage := r.1, lastTap := now }
  let a : Duration := Int.tdiv r.2 tapsLength
  if a ≠ 0 ∧ Int.tdiv Minute a > 0 ∧ Int.tdiv Minute a ≤ maxBpm + 1 then
    let m2 : model := { m1 with bpm := Int.tdiv Minute a }
    KeyFlow.ret m2 (Cmd.updateTicker m2)
  else if a ≠ 0 ∧ Int.tdiv Minute a > maxBpm then
    let m2 : model := { m1 with bpm := maxBpm }
    KeyFlow.ret m2 (Cmd.updateTicker m2)
  else KeyFlow.next m1

/-- Lines 202-257: the ctrl+c test and the switch over mainKeyMap.  The map
has no Quit entry, so the case of line 208 never matches. -/
def keyMain (now : Time) (m : model) (k : Key) : KeyFlow :=
  match k with
  | Key.ctrlC => KeyFlow.ret m Cmd.quit
  | Key.escape =>
    match m.screen with
    | screen.settingsScreen => KeyFlow.ret m (Cmd.screenChange screen.mainScreen)
    | screen.mainScreen => KeyFlow.ret m Cmd.quit
  | Key.edit =>
    match m.screen with
    | screen.mainScreen => KeyFlow.ret m (Cmd.screenChange screen.settingsScreen)
    | screen.settingsScreen => KeyFlow.ret m Cmd.none
  | Key.help => KeyFlow.next { m with helpShowAll := !m.helpShowAll }
  | Key.space =>
    if m.screen ≠ screen.settingsScreen then
      if m.metronomeOn then KeyFlow.ret m (Cmd.stopTicker m)
      else KeyFlow.ret m (Cmd.updateTicker m)
    else KeyFlow.next m
  | Key.tap => tapCase now m
  | _ => KeyFlow.next m

/-- Lines 258-298: the switch over settingsKeyMap on the settings screen. -/
def keySettings (m : model) (k : Key) : model :=
  if m.screen = screen.settingsScreen then
    match k with
    | Key.tab => { m with selected := Int.tmod m.selected (numberOfElement - 1) + 1 }
    | Key.up =>
      if m.selected = bpmElement then
        if m.bpm ≠ maxBpm then { m with bpm := m.bpm + 1 } else m
      else if m.selected = timeSignatureTopElement then
        if m.timeSignatureTop ≠ 16 then { m with timeSignatureTop := m.timeSignatureTop + 1 }
        else m
      else if m.selected = timeSignatureBottomElement then
        if m.timeSignatureBottom ≠ 16 then
          { m with timeSignatureBottom := m.timeSignatureBottom + 1 }
        else m
      else m
    | Key.down =>
      if m.selected = bpmElement then
        if m.bpm ≠ 1 then { m with bpm := m.bpm - 1 } else m
      else if m.selected = timeSignatureTopElement then
        if m.timeSignatureTop ≠ 1 then { m with timeSignatureTop := m.timeSignatureTop - 1 }
        else m
      else if m.selected = timeSignatureBottomElement then
        if m.timeSignatureBottom ≠ 1 then
          { m with timeSignatureBottom := m.timeSignatureBottom - 1 }
        else m
      else m
    | _ => m
  else m

/-- Lines 198-340: Update.  The result is none when the Go code panics
(the remainder by a zero numerator at line 302). -/
def Update (now : Time) (m : model) (msg : Msg) : Option (model × Cmd) :=
  match msg with
  | Msg.key k =>
    match keyMain now m k with
    | KeyFlow.ret m1 c => some (m1, c)
    | KeyFlow.next m1 => some (keySettings m1 k, Cmd.none)
  | Msg.metronomeTick =>
    let b := wrap64 (m.beat + 1)
    if m.timeSignatureTop = 0 then Option.none
    else
      let m1 : model := { m with beat := Int.tmod b m.timeSignatureTop }
      some (m1, Cmd.metronomeTicker m1)
  | Msg.windowSize width =>
    let w := width - padding * 2 - 8
    let w1 := if w > maxWidth then maxWidth else w
    some ({ m with progressWidth := w1, helpWidth := width }, Cmd.none)
  | Msg.screenChange s =>
    let m1 : model := { m with screen := s }
    if m1.screen = screen.settingsScreen then
      let m2 : model := { m1 with selected := 1 }
      some (m2, Cmd.stopTicker m2)
    else
      let m2 : model := { m1 with selected := noneElement }
      some (m2, Cmd.updateTicker m2)
  | Msg.tick =>
    if m.screen = screen.mainScreen then some (m, Cmd.tickAndProgress)
    else some (m, Cmd.tick)
  | Msg.frame accepted =>
    some (m, if accepted then Cmd.progressFrame else Cmd.none)
  | Msg.other => some (m, Cmd.none)

/-! ## Runs of the program -/

/-- Feed a list of (clock reading, message) pairs to Update, from left to
right, threading the model; none if some call panics. -/
def runMsgs (m : model) : List (Time × Msg) → Option model
  | [] => some m
  | ev :: rest =>
    match Update ev.1 m ev.2 with
    | Option.none => Option.none
    | some r => runMsgs r.1 rest

/-- The states the model can be in after any finite sequence of messages
handled by Update, starting from initialModel. -/
def Reachable (m : model) : Prop :=
  ∃ evs : List (Time × Msg), runMsgs initialModel evs = some m

/-- A tap key pressed at each of the given clock readings. -/
def tapsAt (ts : List Time) : List (Time × Msg) :=
  ts.map fun t => (t, Msg.key Key.tap)

/-- The model after a tap key handled at clock reading now. -/
def tapModel (now : Time) (m : model) : model :=
  match keyMain now m Key.tap with
  | KeyFlow.ret m1 _ => m1
  | KeyFlow.next m1 => keySettings m1 Key.tap

/-- The model after five taps 248 ms apart, the first at a present-day
clock reading: the window holds four deltas of 248 ms. -/
def window248ms : model :=
  { initialModel with tapsAverage := [248000000, 248000000, 248000000, 248000000]
                      lastTap := 63900000000992000000 }

/-- The initial model moved to the settings screen with the BPM field
selected and the given tempo. -/
def settingsOnBpm (b : Int) : model :=
  { initialModel with screen := screen.settingsScreen, selected := bpmElement, bpm := b }

/-- Tap keys at the clock readings t0, t0 + gap, ..., t0 + (n - 1) * gap. -/
def tapsSpaced (t0 : Time) (gap : Duration) (n : Nat) : List (Time × Msg) :=
  tapsAt ((List.range n).map fun k => t0 + (k : Int) * gap)

/-- The average as the specification words it: the sum of the four window
slots after the new delta has been pushed, divided by tapsLength. -/
def windowAverageAfterPush (since : Duration) (taps : List Duration) : Duration :=
  Int.tdiv ((tapLoop since taps).1.foldl (fun s v => wrap64 (s + v)) 0) tapsLength

/-- Five taps 500 ms apart followed by a sixth tap one second later. -/
def fiveTapsThenSlowTap : List (Time × Msg) :=
  tapsSpaced 63900000000000000000 (500 * Millisecond) 5
    ++ [(63900000003000000000, Msg.key Key.tap)]

/-- The beats stored after each of n successive metronome ticks. -/
def beatsAfterTicks (m : model) : Nat → Option (List Int)
  | 0 => some []
  | n + 1 =>
    match Update 0 m Msg.metronomeTick with
    | Option.none => Option.none
    | some r => (beatsAfterTicks r.1 n).map (fun bs => r.1.beat :: bs)

/-- The initial model with the numerator 3 and the largest int as beat. -/
def largestBeat : model :=
  { initialModel with timeSignatureTop := 3, beat := 9223372036854775807 }

/-- Three metronome ticks on the main screen, then the settings screen is
opened and the numerator is decreased once. -/
def shrinkAfterThreeTicks : List (Time × Msg) :=
  [(1000000000, Msg.metronomeTick), (2000000000, Msg.metronomeTick),
   (3000000000, Msg.metronomeTick), (3500000000, Msg.key Key.edit),
   (3500000000, Msg.screenChange screen.settingsScreen), (4000000000, Msg.key Key.down)]

/-- The range facts kept by every message: the numerator is within 1..16
and the beat within 0..15. -/
def beatTopInv (m : model) : Prop :=
  1 ≤ m.timeSignatureTop ∧ m.timeSignatureTop ≤ 16 ∧ 0 ≤ m.beat ∧ m.beat < 16

/-- A command that arms or rearms the shared ticker: updateTickerCmd is the
only caller of Ticker.Reset. -/
def Cmd.armsTimer : Cmd → Bool
  | Cmd.updateTicker _ => true
  | _ => false

/-- Five taps 500 ms apart on the main screen, then the Edit key and the
screen change to Settings it asks for. -/
def tapInSettings : List (Time × Msg) :=
  tapsSpaced 63900000000000000000 (500 * Millisecond) 5
    ++ [(63900000002100000000, Msg.key Key.edit),
        (63900000002100000000, Msg.screenChange screen.settingsScreen)]

/-- The model reached by tapInSettings: on the settings screen, with a
window of four deltas of 500 ms. -/
def settingsAfterFiveTaps : model :=
  { initialModel with screen := screen.settingsScreen, selected := timeSignatureTopElement
                      tapsAverage := [500000000, 500000000, 500000000, 500000000]
                      lastTap := 63900000002000000000 }

/-- The facts kept by every message: the tempo is at least 1, both
time-signature fields are within 1..16, and the selection is None on the
main screen and one of the three fields on the settings screen. -/
def sigSelInv (m : model) : Prop :=
  1 ≤ m.bpm ∧ (1 ≤ m.timeSignatureTop ∧ m.timeSignatureTop ≤ 16)
    ∧ (1 ≤ m.timeSignatureBottom ∧ m.timeSignatureBottom ≤ 16)
    ∧ ((m.screen = screen.mainScreen ∧ m.selected = noneElement)
      ∨ (m.screen = screen.settingsScreen
        ∧ (m.selected = timeSignatureTopElement ∨ m.selected = timeSignatureBottomElement
          ∨ m.selected = bpmElement)))

/-- The initial model moved to the settings screen with the numerator
selected. -/
def settingsOnTop : model :=
  { initialModel with screen := screen.settingsScreen, selected := timeSignatureTopElement }

/-! ## View

The termenv styling (foreground colour, reverse video) wraps a text in escape
sequences that depend on the terminal; it is left out, so a styled text is
the text itself. -/

/-- Line 414: metronomeHeight = 5. -/
def metronomeHeight : Int := 5

/-- Library call strings.Repeat(s, count): panics on a negative count. -/
def stringsRepeat (s : String) (count : Int) : Option String :=
  if count < 0 then Option.none else some (String.join (List.replicate count.toNat s))

/-- Line 418: blockWidth. -/
def blockWidth (m : model) : Int :=
  Int.tdiv m.progressWidth m.timeSignatureTop - padding

/-- Lines 441-442: the count of trailing spaces of a row. -/
def trailingSpaces (m : model) : Int :=
  m.progressWidth - (blockWidth m + padding) * m.timeSignatureTop + padding * 2

/-- Lines 428-439: the inner loop over the beats of one row, appending to b. -/
def viewRowBlocks (m : model) (pad : String) (b : String) : Option String :=
  (List.range m.timeSignatureTop.toNat).foldlM
    (fun acc i2 =>
      match stringsRepeat (if m.beat = (i2 : Int) then "█" else "░") (blockWidth m) with
      | Option.none => Option.none
      | some blocks => some (acc ++ pad ++ blocks))
    b

/-- Lines 427-463: one row i of the metronome. -/
def viewRow (m : model) (pad : String) (b : String) (i : Int) : Option String :=
  match viewRowBlocks m pad b with
  | Option.none => Option.none
  | some b1 =>
    match stringsRepeat " " (trailingSpaces m) with
    | Option.none => Option.none
    | some spaces =>
      let metronomeMiddle := Int.tdiv metronomeHeight 2 + 1
      let mark :=
        if metronomeMiddle = i then "-"
        else if metronomeMiddle - 1 = i then toString m.timeSignatureTop
        else if metronomeMiddle + 1 = i then toString m.timeSignatureBottom
        else ""
      some (b1 ++ spaces ++ mark ++ "\n")

/-- Lines 416-466: viewMetronomeBlocks; none when the Go code panics (a zero
numerator at line 418, a negative count passed to strings.Repeat). -/
def viewMetronomeBlocks (m : model) : Option String :=
  if m.timeSignatureTop = 0 then Option.none
  else
    match stringsRepeat " " padding with
    | Option.none => Option.none
    | some pad =>
      ((List.range metronomeHeight.toNat).map fun n => (n : Int) + 1).foldlM (viewRow m pad) ""

/-- The initial model after a resize of the terminal to 19 columns. -/
def resizedTo19 : model := { initialModel with progressWidth := 7, helpWidth := 19 }

/-! ## Helper lemmas -/

theorem wrap64_of_range (x : Int) (h1 : -9223372036854775808 ≤ x)
    (h2 : x < 9223372036854775808) : wrap64 x = x := by
  unfold wrap64
  omega

theorem update_key_up_bpm (now : Time) (m : model)
    (hs : m.screen = screen.settingsScreen) (hsel : m.selected = bpmElement) :
    Update now m (Msg.key Key.up)
      = some ({ m with bpm := if m.bpm = 240 then 240 else m.bpm + 1 }, Cmd.none) := by
  by_cases h : m.bpm = 240
  · simp [Update, keyMain, keySettings, hs, hsel, maxBpm, h]
    cases m
    simp_all
  · simp [Update, keyMain, keySettings, hs, hsel, maxBpm, h]

theorem update_key_down_bpm (now : Time) (m : model)
    (hs : m.screen = screen.settingsScreen) (hsel : m.selected = bpmElement) :
    Update now m (Msg.key Key.down)
      = some ({ m with bpm := if m.bpm = 1 then 1 else m.bpm - 1 }, Cmd.none) := by
  by_cases h : m.bpm = 1
  · simp [Update, keyMain, keySettings, hs, hsel, h]
    cases m
    simp_all
  · simp [Update, keyMain, keySettings, hs, hsel, h]

theorem runMsgs_up_down_bpm (evs : List (Time × Msg)) :
    ∀ m : model, m.screen = screen.settingsScreen → m.selected = bpmElement →
      1 ≤ m.bpm → m.bpm ≤ 240 →
      (∀ ev ∈ evs, ev.2 = Msg.key Key.up ∨ ev.2 = Msg.key Key.down) →
      ∃ m1, runMsgs m evs = some m1 ∧ 1 ≤ m1.bpm ∧ m1.bpm ≤ 240 := by
  induction evs with
  | nil => intro m _ _ h1 h2 _; exact ⟨m, rfl, h1, h2⟩
  | cons ev rest ih =>
    intro m hs hsel h1 h2 hall
    have hev := hall ev (List.mem_cons_self _ _)
    have hrest : ∀ e ∈ rest, e.2 = Msg.key Key.up ∨ e.2 = Msg.key Key.down :=
      fun e he => hall e (List.mem_cons_of_mem _ he)
    rcases hev with hev | hev
    · simp only [runMsgs, hev, update_key_up_bpm ev.1 m hs hsel]
      refine ih _ hs hsel ?_ ?_ hrest
      · show 1 ≤ (if m.bpm = 240 then 240 else m.bpm + 1); split <;> omega
      · show (if m.bpm = 240 then 240 else m.bpm + 1) ≤ 240; split <;> omega
    · simp only [runMsgs, hev, update_key_down_bpm ev.1 m hs hsel]
      refine ih _ hs hsel ?_ ?_ hrest
      · show 1 ≤ (if m.bpm = 1 then 1 else m.bpm - 1); split <;> omega
      · show (if m.bpm = 1 then 1 else m.bpm - 1) ≤ 240; split <;> omega

theorem tapLoop_four (d w0 w1 w2 w3 : Duration) :
    tapLoop d [w0, w1, w2, w3]
      = ([w1, w2, w3, d], wrap64 (wrap64 (wrap64 (wrap64 w0 + w1) + w2) + w3)) := by
  simp [tapLoop, tapLoopStep, List.enum, List.enumFrom, List.getD]

theorem update_tap (now : Time) (m : model) :
    ∃ c, Update now m (Msg.key Key.tap) = some (tapModel now m, c) := by
  unfold Update tapModel
  simp only []
  cases keyMain now m Key.tap <;> simp

theorem keySettings_tap (m : model) : keySettings m Key.tap = m := by
  unfold keySettings
  split <;> rfl

theorem tapModel_window (now : Time) (m : model) :
    (tapModel now m).tapsAverage = (tapLoop (timeSince now m.lastTap) m.tapsAverage).1
      ∧ (tapModel now m).lastTap = now := by
  unfold tapModel keyMain tapCase
  simp only []
  split_ifs <;> simp [keySettings_tap]

theorem tapModel_bpm_500ms (now : Time) (m : model)
    (h : m.tapsAverage = [500000000, 500000000, 500000000, 500000000]) :
    (tapModel now m).bpm = 120 := by
  have h1 : Int.tdiv (wrap64 (wrap64 (wrap64 (wrap64 500000000 + 500000000) + 500000000)
      + 500000000)) tapsLength = 500000000 := by decide
  have h2 : Int.tdiv Minute 500000000 = 120 := by decide
  unfold tapModel keyMain tapCase
  simp only [h, tapLoop_four, h1, h2]
  simp [maxBpm]

theorem runMsgs_append (a b : List (Time × Msg)) : ∀ m : model,
    runMsgs m (a ++ b) = (runMsgs m a).bind (fun m1 => runMsgs m1 b) := by
  induction a with
  | nil => intro m; rfl
  | cons ev rest ih =>
    intro m
    simp only [List.cons_append, runMsgs]
    cases Update ev.1 m ev.2 with
    | none => rfl
    | some r => exact ih r.1

theorem tapsSpaced_succ (t0 : Time) (gap : Duration) (n : Nat) :
    tapsSpaced t0 gap (n + 1)
      = tapsSpaced t0 gap n ++ [(t0 + (n : Int) * gap, Msg.key Key.tap)] := by
  simp [tapsSpaced, tapsAt, List.range_succ]

theorem runMsgs_snoc_tap (evs : List (Time × Msg)) (t : Time) (m : model) :
    runMsgs m (evs ++ [(t, Msg.key Key.tap)]) = (runMsgs m evs).map (tapModel t) := by
  rw [runMsgs_append]
  cases runMsgs m evs with
  | none => rfl
  | some m1 =>
    obtain ⟨c, hc⟩ := update_tap t m1
    simp [runMsgs, hc]

theorem tapModel_shift (now : Time) (m : model) (a b c d : Duration)
    (h : m.tapsAverage = [a, b, c, d]) :
    (tapModel now m).tapsAverage = [b, c, d, timeSince now m.lastTap] := by
  rw [(tapModel_window now m).1, h, tapLoop_four]

theorem timeSince_gap (t : Time) (k : Int) :
    timeSince (t + (k + 1) * 500000000) (t + k * 500000000) = 500000000 := by
  unfold timeSince
  have : t + (k + 1) * 500000000 - (t + k * 500000000) = 500000000 := by ring
  rw [this]
  simp [maxDuration, minDuration]

theorem five_taps_fill_window (t0 : Time) :
    ∃ m, runMsgs initialModel (tapsSpaced t0 500000000 5) = some m
      ∧ m.tapsAverage = [500000000, 500000000, 500000000, 500000000]
      ∧ m.lastTap = t0 + 4 * 500000000 := by
  have e0 : runMsgs initialModel (tapsSpaced t0 500000000 0) = some initialModel := rfl
  have e1 := runMsgs_snoc_tap (tapsSpaced t0 500000000 0) (t0 + (0 : Nat) * 500000000)
    initialModel
  rw [← tapsSpaced_succ, e0] at e1
  have e2 := runMsgs_snoc_tap (tapsSpaced t0 500000000 1) (t0 + (1 : Nat) * 500000000)
    initialModel
  rw [← tapsSpaced_succ, e1] at e2
  have e3 := runMsgs_snoc_tap (tapsSpaced t0 500000000 2) (t0 + (2 : Nat) * 500000000)
    initialModel
  rw [← tapsSpaced_succ, e2] at e3
  have e4 := runMsgs_snoc_tap (tapsSpaced t0 500000000 3) (t0 + (3 : Nat) * 500000000)
    initialModel
  rw [← tapsSpaced_succ, e3] at e4
  have e5 := runMsgs_snoc_tap (tapsSpaced t0 500000000 4) (t0 + (4 : Nat) * 500000000)
    initialModel
  rw [← tapsSpaced_succ, e4] at e5
  simp only [Option.map] at e5
  refine ⟨_, e5, ?_, ?_⟩
  · have w1 := tapModel_shift (t0 + (0 : Nat) * 500000000) initialModel 0 0 0 0 rfl
    have w2 := tapModel_shift (t0 + (1 : Nat) * 500000000) _ _ _ _ _ w1
    have w3 := tapModel_shift (t0 + (2 : Nat) * 500000000) _ _ _ _ _ w2
    have w4 := tapModel_shift (t0 + (3 : Nat) * 500000000) _ _ _ _ _ w3
    have w5 := tapModel_shift (t0 + (4 : Nat) * 500000000) _ _ _ _ _ w4
    rw [w5]
    simp only [(tapModel_window _ _).2]
    have g1 := timeSince_gap t0 0
    have g2 := timeSince_gap t0 1
    have g3 := timeSince_gap t0 2
    have g4 := timeSince_gap t0 3
    norm_num at g1 g2 g3 g4 ⊢
    simp [g1, g2, g3, g4]
  · rw [(tapModel_window _ _).2]
    norm_num

theorem steady_taps_keep_window (t0 : Time) (k : Nat) :
    ∃ m, runMsgs initialModel (tapsSpaced t0 500000000 (k + 5)) = some m
      ∧ m.tapsAverage = [500000000, 500000000, 500000000, 500000000]
      ∧ m.lastTap = t0 + ((k : Int) + 4) * 500000000 := by
  induction k with
  | zero =>
    obtain ⟨m, h1, h2, h3⟩ := five_taps_fill_window t0
    exact ⟨m, h1, h2, by rw [h3]; norm_num⟩
  | succ k ih =>
    obtain ⟨m, h1, h2, h3⟩ := ih
    refine ⟨tapModel (t0 + ((k + 5 : Nat) : Int) * 500000000) m, ?_, ?_, ?_⟩
    · have e : k + 1 + 5 = (k + 5) + 1 := by omega
      rw [e, tapsSpaced_succ, runMsgs_snoc_tap, h1]
      rfl
    · rw [tapModel_shift _ m _ _ _ _ h2, h3]
      have g := timeSince_gap t0 ((k : Int) + 4)
      have e : ((k + 5 : Nat) : Int) = (k : Int) + 4 + 1 := by push_cast; ring
      rw [e, g]
    · rw [(tapModel_window _ _).2]
      push_cast
      ring

theorem tapModel_frame (now : Time) (m : model) :
    (tapModel now m).beat = m.beat ∧ (tapModel now m).timeSignatureTop = m.timeSignatureTop := by
  unfold tapModel keyMain tapCase
  simp only []
  split_ifs <;> simp [keySettings_tap]

theorem update_key_beat_top (now : Time) (m : model) (k : Key) :
    ∃ r, Update now m (Msg.key k) = some r ∧ r.1.beat = m.beat
      ∧ (r.1.timeSignatureTop = m.timeSignatureTop
        ∨ (m.timeSignatureTop ≠ 16 ∧ r.1.timeSignatureTop = m.timeSignatureTop + 1)
        ∨ (k = Key.down ∧ m.screen = screen.settingsScreen
            ∧ m.selected = timeSignatureTopElement ∧ m.timeSignatureTop ≠ 1
            ∧ r.1.timeSignatureTop = m.timeSignatureTop - 1)) := by
  cases k
  case tap =>
    obtain ⟨c, hc⟩ := update_tap now m
    exact ⟨_, hc, (tapModel_frame now m).1, Or.inl (tapModel_frame now m).2⟩
  all_goals
    cases hsc : m.screen <;> simp [Update, keyMain, keySettings, hsc] <;>
      (try split_ifs) <;> (try simp_all)

theorem update_beat_top (now : Time) (m : model) (msg : Msg) (hinv : beatTopInv m) :
    ∃ r, Update now m msg = some r ∧ beatTopInv r.1
      ∧ (m.beat < m.timeSignatureTop → m.timeSignatureTop ≤ r.1.timeSignatureTop →
          r.1.beat < r.1.timeSignatureTop)
      ∧ (msg = Msg.metronomeTick → r.1.beat < r.1.timeSignatureTop)
      ∧ (r.1.timeSignatureTop < m.timeSignatureTop →
          msg = Msg.key Key.down ∧ m.screen = screen.settingsScreen
            ∧ m.selected = timeSignatureTopElement) := by
  obtain ⟨h1, h2, h3, h4⟩ := hinv
  cases msg with
  | key k =>
    obtain ⟨r, hr, hb, ht⟩ := update_key_beat_top now m k
    refine ⟨r, hr, ?_, ?_, (fun h => by cases h), ?_⟩
    · unfold beatTopInv
      rcases ht with ht | ⟨_, ht⟩ | ⟨_, _, _, _, ht⟩ <;> omega
    · intro hlt hle
      omega
    · intro hlt
      rcases ht with ht | ⟨_, ht⟩ | ⟨hk, hsc, hsel, _, _⟩
      · omega
      · omega
      · exact ⟨by rw [hk], hsc, hsel⟩
  | metronomeTick =>
    have hne : m.timeSignatureTop ≠ 0 := by omega
    have hmod : Int.tmod (wrap64 (m.beat + 1)) m.timeSignatureTop
        = (m.beat + 1) % m.timeSignatureTop := by
      rw [wrap64_of_range _ (by omega) (by omega)]
      exact Int.tmod_eq_emod (by omega) (by omega)
    have hlt := Int.emod_lt_of_pos (m.beat + 1) (show 0 < m.timeSignatureTop by omega)
    have hge := Int.emod_nonneg (m.beat + 1) hne
    refine ⟨({ m with beat := Int.tmod (wrap64 (m.beat + 1)) m.timeSignatureTop },
        Cmd.metronomeTicker
          { m with beat := Int.tmod (wrap64 (m.beat + 1)) m.timeSignatureTop }),
      by simp [Update, hne], ?_, ?_, ?_, fun h => absurd h (lt_irrefl _)⟩
    · simp only [beatTopInv, hmod]
      omega
    · intro _ _
      simp only [hmod]
      exact hlt
    · intro _
      simp only [hmod]
      exact hlt
  | windowSize w =>
    exact ⟨_, rfl, ⟨h1, h2, h3, h4⟩, fun h _ => h, (fun h => by cases h),
      fun h => absurd h (lt_irrefl _)⟩
  | screenChange s =>
    cases s
    · exact ⟨_, rfl, ⟨h1, h2, h3, h4⟩, fun h _ => h, (fun h => by cases h),
        fun h => absurd h (lt_irrefl _)⟩
    · exact ⟨_, rfl, ⟨h1, h2, h3, h4⟩, fun h _ => h, (fun h => by cases h),
        fun h => absurd h (lt_irrefl _)⟩
  | tick =>
    cases hsc : m.screen
    · exact ⟨(m, Cmd.tickAndProgress), by simp [Update, hsc], ⟨h1, h2, h3, h4⟩, fun h _ => h,
        (fun h => by cases h), fun h => absurd h (lt_irrefl _)⟩
    · exact ⟨(m, Cmd.tick), by simp [Update, hsc], ⟨h1, h2, h3, h4⟩, fun h _ => h,
        (fun h => by cases h), fun h => absurd h (lt_irrefl _)⟩
  | frame a =>
    exact ⟨_, rfl, ⟨h1, h2, h3, h4⟩, fun h _ => h, (fun h => by cases h),
      fun h => absurd h (lt_irrefl _)⟩
  | other =>
    exact ⟨_, rfl, ⟨h1, h2, h3, h4⟩, fun h _ => h, (fun h => by cases h),
      fun h => absurd h (lt_irrefl _)⟩

theorem runMsgs_beatTopInv (evs : List (Time × Msg)) :
    ∀ m m1 : model, beatTopInv m → runMsgs m evs = some m1 → beatTopInv m1 := by
  induction evs with
  | nil =>
    intro m m1 h e
    simp only [runMsgs, Option.some.injEq] at e
    exact e ▸ h
  | cons ev rest ih =>
    intro m m1 h e
    obtain ⟨r, hr, hinv, _⟩ := update_beat_top ev.1 m ev.2 h
    simp only [runMsgs, hr] at e
    exact ih r.1 m1 hinv e

theorem reachable_beatTopInv (m : model) (h : Reachable m) : beatTopInv m := by
  obtain ⟨evs, he⟩ := h
  exact runMsgs_beatTopInv evs initialModel m (by unfold beatTopInv initialModel; decide) he

theorem tapModel_frame_more (now : Time) (m : model) :
    (tapModel now m).timeSignatureBottom = m.timeSignatureBottom
      ∧ (tapModel now m).screen = m.screen ∧ (tapModel now m).selected = m.selected := by
  unfold tapModel keyMain tapCase
  simp only []
  split_ifs <;> simp [keySettings_tap]

theorem tapModel_bpm_pos (now : Time) (m : model) (h : 1 ≤ m.bpm) :
    1 ≤ (tapModel now m).bpm := by
  unfold tapModel keyMain tapCase
  simp only []
  split_ifs with h1 h2
  · show 1 ≤ Int.tdiv Minute _
    have := h1.2.1
    omega
  · show 1 ≤ maxBpm
    decide
  · simpa [keySettings_tap] using h

/-- How a key message moves the two time-signature fields. -/
theorem update_key_signature (now : Time) (m : model) (k : Key) :
    ∃ r, Update now m (Msg.key k) = some r
      ∧ ((r.1.timeSignatureTop = m.timeSignatureTop
            ∧ r.1.timeSignatureBottom = m.timeSignatureBottom)
        ∨ (m.screen = screen.settingsScreen ∧ m.selected = timeSignatureTopElement
            ∧ r.1.timeSignatureBottom = m.timeSignatureBottom
            ∧ ((m.timeSignatureTop ≠ 16 ∧ r.1.timeSignatureTop = m.timeSignatureTop + 1)
              ∨ (m.timeSignatureTop ≠ 1 ∧ r.1.timeSignatureTop = m.timeSignatureTop - 1)))
        ∨ (m.screen = screen.settingsScreen ∧ m.selected = timeSignatureBottomElement
            ∧ r.1.timeSignatureTop = m.timeSignatureTop
            ∧ ((m.timeSignatureBottom ≠ 16
                ∧ r.1.timeSignatureBottom = m.timeSignatureBottom + 1)
              ∨ (m.timeSignatureBottom ≠ 1
                ∧ r.1.timeSignatureBottom = m.timeSignatureBottom - 1)))) := by
  cases k
  case tap =>
    obtain ⟨c, hc⟩ := update_tap now m
    exact ⟨_, hc, Or.inl ⟨(tapModel_frame now m).2, (tapModel_frame_more now m).1⟩⟩
  all_goals
    cases hsc : m.screen <;> simp [Update, keyMain, keySettings, hsc] <;>
      (try split_ifs) <;> (try simp_all)

/-- How a key message moves the screen, the selection and the tempo. -/
theorem update_key_selection (now : Time) (m : model) (k : Key) :
    ∃ r, Update now m (Msg.key k) = some r ∧ r.1.screen = m.screen
      ∧ (r.1.selected = m.selected
        ∨ (m.screen = screen.settingsScreen
            ∧ r.1.selected = Int.tmod m.selected (numberOfElement - 1) + 1))
      ∧ (1 ≤ m.bpm → 1 ≤ r.1.bpm) := by
  cases k
  case tap =>
    obtain ⟨c, hc⟩ := update_tap now m
    exact ⟨_, hc, (tapModel_frame_more now m).2.1, Or.inl (tapModel_frame_more now m).2.2,
      tapModel_bpm_pos now m⟩
  all_goals
    cases hsc : m.screen <;> simp [Update, keyMain, keySettings, hsc] <;>
      (try split_ifs) <;> (try simp_all) <;> (try omega)

theorem update_sigSelInv (now : Time) (m : model) (msg : Msg) (hinv : sigSelInv m) :
    ∃ r, Update now m msg = some r ∧ sigSelInv r.1 := by
  obtain ⟨hb, ht, hbo, hsel⟩ := hinv
  cases msg with
  | key k =>
    obtain ⟨r, hr, hsig⟩ := update_key_signature now m k
    obtain ⟨r2, hr2, hscr, hs, hbpm⟩ := update_key_selection now m k
    rw [hr] at hr2
    cases hr2
    refine ⟨r, hr, hbpm hb, ?_, ?_, ?_⟩
    · rcases hsig with h | ⟨_, _, _, h | h⟩ | ⟨_, _, h, _⟩ <;> omega
    · rcases hsig with h | ⟨_, _, h, _⟩ | ⟨_, _, _, h | h⟩ <;> omega
    · rw [hscr]
      rcases hs with h | ⟨hset, h⟩
      · rw [h]
        exact hsel
      · rcases hsel with ⟨hm, _⟩ | ⟨_, h1 | h1 | h1⟩
        · rw [hm] at hset
          cases hset
        · exact Or.inr ⟨hset, Or.inr (Or.inl (by rw [h, h1]; decide))⟩
        · exact Or.inr ⟨hset, Or.inr (Or.inr (by rw [h, h1]; decide))⟩
        · exact Or.inr ⟨hset, Or.inl (by rw [h, h1]; decide)⟩
  | metronomeTick =>
    have hne : m.timeSignatureTop ≠ 0 := by omega
    exact ⟨({ m with beat := Int.tmod (wrap64 (m.beat + 1)) m.timeSignatureTop },
        Cmd.metronomeTicker
          { m with beat := Int.tmod (wrap64 (m.beat + 1)) m.timeSignatureTop }),
      by simp [Update, hne], hb, ht, hbo, hsel⟩
  | windowSize w => exact ⟨_, rfl, hb, ht, hbo, hsel⟩
  | screenChange s =>
    cases s
    · exact ⟨_, rfl, hb, ht, hbo, Or.inl ⟨rfl, rfl⟩⟩
    · exact ⟨_, rfl, hb, ht, hbo, Or.inr ⟨rfl, Or.inl rfl⟩⟩
  | tick =>
    cases hsc : m.screen
    · exact ⟨(m, Cmd.tickAndProgress), by simp [Update, hsc], hb, ht, hbo, hsel⟩
    · exact ⟨(m, Cmd.tick), by simp [Update, hsc], hb, ht, hbo, hsel⟩
  | frame a => exact ⟨_, rfl, hb, ht, hbo, hsel⟩
  | other => exact ⟨_, rfl, hb, ht, hbo, hsel⟩

theorem runMsgs_sigSelInv (evs : List (Time × Msg)) :
    ∀ m m1 : model, sigSelInv m → runMsgs m evs = some m1 → sigSelInv m1 := by
  induction evs with
  | nil =>
    intro m m1 h e
    simp only [runMsgs, Option.some.injEq] at e
    exact e ▸ h
  | cons ev rest ih =>
    intro m m1 h e
    obtain ⟨r, hr, hinv⟩ := update_sigSelInv ev.1 m ev.2 h
    simp only [runMsgs, hr] at e
    exact ih r.1 m1 hinv e

theorem reachable_sigSelInv (m : model) (h : Reachable m) : sigSelInv m := by
  obtain ⟨evs, he⟩ := h
  refine runMsgs_sigSelInv evs initialModel m ?_ he
  unfold sigSelInv initialModel
  decide

theorem update_signature_frame (now : Time) (m : model) (msg : Msg) (r : model × Cmd)
    (h : Update now m msg = some r) :
    (r.1.timeSignatureTop ≠ m.timeSignatureTop →
        m.screen = screen.settingsScreen ∧ m.selected = timeSignatureTopElement)
    ∧ (r.1.timeSignatureBottom ≠ m.timeSignatureBottom →
        m.screen = screen.settingsScreen ∧ m.selected = timeSignatureBottomElement) := by
  cases msg with
  | key k =>
    obtain ⟨r2, hr2, hsig⟩ := update_key_signature now m k
    rw [h] at hr2
    cases hr2
    rcases hsig with ⟨h1, h2⟩ | ⟨hs, hsel, h2, _⟩ | ⟨hs, hsel, h1, _⟩
    · exact ⟨fun hn => absurd h1 hn, fun hn => absurd h2 hn⟩
    · exact ⟨fun _ => ⟨hs, hsel⟩, fun hn => absurd h2 hn⟩
    · exact ⟨fun hn => absurd h1 hn, fun _ => ⟨hs, hsel⟩⟩
  | metronomeTick =>
    simp only [Update] at h
    split_ifs at h
    cases h
    exact ⟨fun hn => absurd rfl hn, fun hn => absurd rfl hn⟩
  | windowSize w =>
    cases h
    exact ⟨fun hn => absurd rfl hn, fun hn => absurd rfl hn⟩
  | screenChange s =>
    cases s <;> cases h <;> exact ⟨fun hn => absurd rfl hn, fun hn => absurd rfl hn⟩
  | tick =>
    simp only [Update] at h
    split_ifs at h <;> cases h <;> exact ⟨fun hn => absurd rfl hn, fun hn => absurd rfl hn⟩
  | frame a =>
    cases h
    exact ⟨fun hn => absurd rfl hn, fun hn => absurd rfl hn⟩
  | other =>
    cases h
    exact ⟨fun hn => absurd rfl hn, fun hn => absurd rfl hn⟩

theorem update_up_down_other_field (now : Time) (m : model) (k : Key) (r : model × Cmd)
    (h : Update now m (Msg.key k) = some r) :
    (m.selected = timeSignatureTopElement → r.1.timeSignatureBottom = m.timeSignatureBottom)
    ∧ (m.selected = timeSignatureBottomElement → r.1.timeSignatureTop = m.timeSignatureTop) := by
  obtain ⟨h1, h2⟩ := update_signature_frame now m (Msg.key k) r h
  constructor
  · intro hs
    by_contra hn
    have := (h2 hn).2
    rw [hs] at this
    exact absurd this (by decide)
  · intro hs
    by_contra hn
    have := (h1 hn).2
    rw [hs] at this
    exact absurd this (by decide)

theorem update_saturates (now : Time) (m : model) :
    (m.selected = timeSignatureTopElement → m.timeSignatureTop = 16 →
        Update now m (Msg.key Key.up) = some (m, Cmd.none))
    ∧ (m.selected = timeSignatureTopElement → m.timeSignatureTop = 1 →
        Update now m (Msg.key Key.down) = some (m, Cmd.none))
    ∧ (m.selected = timeSignatureBottomElement → m.timeSignatureBottom = 16 →
        Update now m (Msg.key Key.up) = some (m, Cmd.none))
    ∧ (m.selected = timeSignatureBottomElement → m.timeSignatureBottom = 1 →
        Update now m (Msg.key Key.down) = some (m, Cmd.none)) := by
  refine ⟨?_, ?_, ?_, ?_⟩ <;> intro hs hv <;> cases hsc : m.screen <;>
    simp [Update, keyMain, keySettings, hsc, hs, hv, timeSignatureTopElement,
      timeSignatureBottomElement, bpmElement]

/-! ## Theorems -/

/-- C1 (fails on the code): six taps 248 ms apart, starting from the
initial model, leave bpm at 241, outside the range 1..240. -/
theorem bpm_241_reachable_by_taps :
    (runMsgs initialModel (tapsSpaced 63900000000000000000 (248 * Millisecond) 6)).map
        (fun m => m.bpm) = some 241 := by
  decide

/-- C2: on the settings screen with the BPM field selected and bpm within
1..240, every finite sequence of Up and Down keys runs to a model whose bpm
is within 1..240; a single Up gives 240 at 240 and bpm + 1 otherwise, a
single Down gives 1 at 1 and bpm - 1 otherwise. -/
theorem bpm_up_down_saturates (m : model)
    (hs : m.screen = screen.settingsScreen) (hsel : m.selected = bpmElement)
    (hlo : 1 ≤ m.bpm) (hhi : m.bpm ≤ 240) :
    (∀ evs : List (Time × Msg),
        (∀ ev ∈ evs, ev.2 = Msg.key Key.up ∨ ev.2 = Msg.key Key.down) →
        ∃ m1, runMsgs m evs = some m1 ∧ 1 ≤ m1.bpm ∧ m1.bpm ≤ 240) ∧
    (∀ now, Update now m (Msg.key Key.up)
        = some ({ m with bpm := if m.bpm = 240 then 240 else m.bpm + 1 }, Cmd.none)) ∧
    (∀ now, Update now m (Msg.key Key.down)
        = some ({ m with bpm := if m.bpm = 1 then 1 else m.bpm - 1 }, Cmd.none)) :=
  ⟨fun evs h => runMsgs_up_down_bpm evs m hs hsel hlo hhi h,
   fun now => update_key_up_bpm now m hs hsel,
   fun now => update_key_down_bpm now m hs hsel⟩

/-- C2 at a concrete model: from bpm 240, Up three times and Down once. -/
theorem bpm_up_down_saturates_witness :
    ∃ m1, runMsgs (settingsOnBpm 240)
        [(0, Msg.key Key.up), (1, Msg.key Key.up), (2, Msg.key Key.up), (3, Msg.key Key.down)]
        = some m1 ∧ 1 ≤ m1.bpm ∧ m1.bpm ≤ 240 :=
  (bpm_up_down_saturates (settingsOnBpm 240) rfl rfl (by decide) (by decide)).1 _
    (by decide)

/-- C3 (fails on the code): after five taps 248 ms apart the window
averages 248 ms, so the next tap derives the raw tempo 241, above 240;
Update stores 241 instead of 240 (and returns the retime command). -/
theorem tap_raw_241_not_clamped :
    runMsgs initialModel (tapsSpaced 63900000000000000000 (248 * Millisecond) 5)
      = some window248ms
    ∧ Int.tdiv Minute (248 * Millisecond) = 241
    ∧ Update 63900000001240000000 window248ms (Msg.key Key.tap)
      = some ({ window248ms with bpm := 241, lastTap := 63900000001240000000 },
          Cmd.updateTicker
            { window248ms with bpm := 241, lastTap := 63900000001240000000 }) := by
  decide

/-- C4 (as stated, fails): four taps exactly 500 ms apart, the first at a
present-day clock reading, leave bpm at its initial 60, not at 120. -/
theorem four_taps_500ms_leave_bpm_60 :
    (runMsgs initialModel (tapsSpaced 63900000000000000000 (500 * Millisecond) 4)).map
        (fun m => m.bpm) = some 60
    ∧ (runMsgs initialModel (tapsSpaced 63900000000000000000 (500 * Millisecond) 4)).map
        (fun m => m.bpm) ≠ some 120 := by
  decide

/-- C4 (amended): from the initial model, after six or more taps exactly
500 ms apart, whatever the clock reading of the first tap, the run succeeds
and bpm equals 120. -/
theorem six_or_more_taps_500ms_give_120 (t0 : Time) (n : Nat) (hn : 6 ≤ n) :
    (runMsgs initialModel (tapsSpaced t0 (500 * Millisecond) n)).map (fun m => m.bpm)
      = some 120 := by
  have hg : 500 * Millisecond = 500000000 := by decide
  obtain ⟨k, rfl⟩ : ∃ k, n = (k + 5) + 1 := ⟨n - 6, by omega⟩
  obtain ⟨m, h1, h2, _⟩ := steady_taps_keep_window t0 k
  rw [hg, tapsSpaced_succ, runMsgs_snoc_tap, h1]
  simp [tapModel_bpm_500ms _ m h2]

/-- C4 (amended) at a concrete input: six taps, the first at clock reading
63900000000000000000. -/
theorem six_or_more_taps_500ms_give_120_witness :
    (runMsgs initialModel (tapsSpaced 63900000000000000000 (500 * Millisecond) 6)).map
        (fun m => m.bpm) = some 120 :=
  six_or_more_taps_500ms_give_120 63900000000000000000 6 (by decide)

/-- C5 (fails on the code): after five taps 500 ms apart, a sixth tap one
second later sets bpm to 120, the tempo of the four deltas before the push
(500 ms each); the window after the push is 500, 500, 500, 1000 ms, whose
average 625 ms would give 96. -/
theorem tap_average_ignores_new_delta :
    (runMsgs initialModel fiveTapsThenSlowTap).map (fun m => (m.bpm, m.tapsAverage))
      = some (120, [500000000, 500000000, 500000000, 1000000000])
    ∧ windowAverageAfterPush 1000000000 [500000000, 500000000, 500000000, 500000000]
      = 625000000
    ∧ Int.tdiv Minute 625000000 = 96 := by
  decide

/-- C6 (fails on the code): on the main screen the first Space returns the
stop command and the model with metronomeOn still true; a second Space on
that model returns the stop command again, not the retime command. -/
theorem second_toggle_run_stops_again :
    ∃ m1, Update 0 initialModel (Msg.key Key.space) = some (m1, Cmd.stopTicker initialModel)
      ∧ m1.metronomeOn = true
      ∧ Cmd.run (Cmd.stopTicker initialModel) initialTicker
          = some ({ running := false, period := Second }, [])
      ∧ Update 1 m1 (Msg.key Key.space) = some (m1, Cmd.stopTicker m1) :=
  ⟨initialModel, by decide, by decide, by decide, by decide⟩

/-- C7: a screen change to Settings sets screen = Settings and selected =
timeSignatureTopElement and returns the stop command, which stops the
ticker; a screen change to Main sets screen = Main and selected =
noneElement and returns the retime command, which (for a tempo between 1 and
60e9) arms the ticker with the period 60 s / bpm.  The Edit key on Main and
the Escape key on Settings return the commands that deliver exactly these
screen-change messages. -/
theorem screen_change_sets_selection_and_timer (now : Time) (m : model) :
    Update now m (Msg.screenChange screen.settingsScreen)
      = some ({ m with screen := screen.settingsScreen, selected := timeSignatureTopElement },
          Cmd.stopTicker
            { m with screen := screen.settingsScreen, selected := timeSignatureTopElement })
    ∧ (∀ tk : Ticker,
        Cmd.run (Cmd.stopTicker
            { m with screen := screen.settingsScreen, selected := timeSignatureTopElement }) tk
          = some ({ running := false, period := tk.period }, []))
    ∧ Update now m (Msg.screenChange screen.mainScreen)
      = some ({ m with screen := screen.mainScreen, selected := noneElement },
          Cmd.updateTicker { m with screen := screen.mainScreen, selected := noneElement })
    ∧ (∀ tk : Ticker, 1 ≤ m.bpm → m.bpm ≤ Minute →
        Cmd.run (Cmd.updateTicker
            { m with screen := screen.mainScreen, selected := noneElement }) tk
          = some ({ running := true, period := Minute / m.bpm }, []))
    ∧ (m.screen = screen.mainScreen →
        Update now m (Msg.key Key.edit) = some (m, Cmd.screenChange screen.settingsScreen))
    ∧ (m.screen = screen.settingsScreen →
        Update now m (Msg.key Key.escape) = some (m, Cmd.screenChange screen.mainScreen))
    ∧ (∀ (s : screen) (tk : Ticker),
        Cmd.run (Cmd.screenChange s) tk = some (tk, [Msg.screenChange s])) := by
  refine ⟨rfl, fun tk => rfl, rfl, ?_, ?_, ?_, fun s tk => rfl⟩
  · intro tk h1 h2
    have hb : 0 < m.bpm := by omega
    have hpos : 1 ≤ Minute / m.bpm := Int.le_ediv_of_mul_le hb (by omega)
    have hdiv : Int.tdiv Minute m.bpm = Minute / m.bpm :=
      Int.tdiv_eq_ediv (by decide) (by omega)
    have hne : m.bpm ≠ 0 := by omega
    have hnle : ¬ Minute / m.bpm ≤ 0 := not_le.mpr (lt_of_lt_of_le Int.zero_lt_one hpos)
    simp [Cmd.run, updateTickerCmd, Ticker.Reset, hne, hdiv, hnle]
  · intro h
    simp [Update, keyMain, h]
  · intro h
    simp [Update, keyMain, h]

/-- C7 at the initial model and the initial ticker: the retime command
issued on the return to Main arms the ticker with 60 s / 60. -/
theorem screen_change_sets_selection_and_timer_witness :
    Cmd.run (Cmd.updateTicker
        { initialModel with screen := screen.mainScreen, selected := noneElement })
        initialTicker
      = some ({ running := true, period := Minute / initialModel.bpm }, []) :=
  (screen_change_sets_selection_and_timer 0 initialModel).2.2.2.1 initialTicker
    (by decide) (by decide)

/-- C8 (as stated, fails): with the largest int as stored beat and the
numerator 3, the increment wraps around and the tick stores -2, which is
neither (B + 1) mod 3 = 2 nor within 0..2. -/
theorem metronome_tick_wraps_at_largest_beat :
    Update 0 largestBeat Msg.metronomeTick
      = some ({ largestBeat with beat := -2 },
          Cmd.metronomeTicker { largestBeat with beat := -2 })
    ∧ 1 ≤ largestBeat.timeSignatureTop ∧ largestBeat.timeSignatureTop ≤ 16
    ∧ 0 ≤ largestBeat.beat
    ∧ (largestBeat.beat + 1) % largestBeat.timeSignatureTop = 2
    ∧ ¬ (0 : Int) ≤ -2 := by
  decide

/-- C8 (amended): for a numerator N within 1..16 and a stored beat B with
0 ≤ B < 2^63 - 1 (also when B is N or more), one metronome tick succeeds and
stores (B + 1) mod N, which lies within 0..N-1; from beat 0 with N = 4, four
ticks store 1, 2, 3, 0 in turn. -/
theorem metronome_tick_advances_beat (now : Time) (m : model)
    (hN1 : 1 ≤ m.timeSignatureTop) (hN2 : m.timeSignatureTop ≤ 16) (hB : 0 ≤ m.beat)
    (hB2 : m.beat < 9223372036854775807) :
    Update now m Msg.metronomeTick
      = some ({ m with beat := (m.beat + 1) % m.timeSignatureTop },
          Cmd.metronomeTicker { m with beat := (m.beat + 1) % m.timeSignatureTop })
    ∧ 0 ≤ (m.beat + 1) % m.timeSignatureTop
    ∧ (m.beat + 1) % m.timeSignatureTop ≤ m.timeSignatureTop - 1
    ∧ (m.timeSignatureTop = 4 → m.beat = 0 → beatsAfterTicks m 4 = some [1, 2, 3, 0]) := by
  have hne : m.timeSignatureTop ≠ 0 := by omega
  have hmod : Int.tmod (wrap64 (m.beat + 1)) m.timeSignatureTop
      = (m.beat + 1) % m.timeSignatureTop := by
    rw [wrap64_of_range _ (by omega) (by omega)]
    exact Int.tmod_eq_emod (by omega) (by omega)
  refine ⟨?_, Int.emod_nonneg _ hne, ?_, ?_⟩
  · simp [Update, hne, hmod]
  · have := Int.emod_lt_of_pos (m.beat + 1) (show 0 < m.timeSignatureTop by omega)
    omega
  · intro h4 h0
    cases m
    simp_all [beatsAfterTicks, Update]
    decide

/-- C8 (amended) at the initial model (4/4, beat 0): four ticks store 1, 2,
3, 0. -/
theorem metronome_tick_advances_beat_witness :
    beatsAfterTicks initialModel 4 = some [1, 2, 3, 0] :=
  (metronome_tick_advances_beat 0 initialModel (by decide) (by decide) (by decide)
    (by decide)).2.2.2 rfl rfl

/-- C9 (as stated, fails): after three ticks, opening the settings screen
and one Down on the numerator, the reachable model has beat = 3 and
timeSignatureTop = 3. -/
theorem beat_not_below_numerator_after_shrink :
    ∃ m, runMsgs initialModel shrinkAfterThreeTicks = some m
      ∧ m.beat = 3 ∧ m.timeSignatureTop = 3 ∧ ¬ m.beat < m.timeSignatureTop :=
  ⟨{ initialModel with beat := 3, timeSignatureTop := 3, screen := screen.settingsScreen,
                       selected := timeSignatureTopElement },
    by decide, by decide, by decide, by decide⟩

/-- C9 (amended): in every reachable state the numerator is within 1..16
and the beat within 0..15; beat < timeSignatureTop holds initially; every
message is handled without panic and keeps beat < timeSignatureTop unless it
decreases the numerator, which only a Down key on the settings screen with
the numerator selected does; and every metronome tick establishes it. -/
theorem beat_below_numerator_kept_unless_shrunk (m : model) (hr : Reachable m) :
    (1 ≤ m.timeSignatureTop ∧ m.timeSignatureTop ≤ 16 ∧ 0 ≤ m.beat ∧ m.beat < 16)
    ∧ initialModel.beat < initialModel.timeSignatureTop
    ∧ (∀ (now : Time) (msg : Msg), ∃ r, Update now m msg = some r
        ∧ (m.beat < m.timeSignatureTop → m.timeSignatureTop ≤ r.1.timeSignatureTop →
            r.1.beat < r.1.timeSignatureTop)
        ∧ (r.1.timeSignatureTop < m.timeSignatureTop →
            msg = Msg.key Key.down ∧ m.screen = screen.settingsScreen
              ∧ m.selected = timeSignatureTopElement))
    ∧ (∀ now : Time, ∃ r, Update now m Msg.metronomeTick = some r
        ∧ r.1.beat < r.1.timeSignatureTop) := by
  have hinv := reachable_beatTopInv m hr
  refine ⟨hinv, by decide, ?_, ?_⟩
  · intro now msg
    obtain ⟨r, h1, _, h3, _, h5⟩ := update_beat_top now m msg hinv
    exact ⟨r, h1, h3, h5⟩
  · intro now
    obtain ⟨r, h1, _, _, h4, _⟩ := update_beat_top now m Msg.metronomeTick hinv
    exact ⟨r, h1, h4 rfl⟩

/-- C9 (amended) at the initial model: a metronome tick leaves the beat
below the numerator. -/
theorem beat_below_numerator_kept_unless_shrunk_witness :
    ∃ r, Update 1000000000 initialModel Msg.metronomeTick = some r
      ∧ r.1.beat < r.1.timeSignatureTop :=
  (beat_below_numerator_kept_unless_shrunk initialModel ⟨[], rfl⟩).2.2.2 1000000000

/-- C10: on the settings screen, for a selection among None, Numerator,
Denominator and BPM, the Tab key yields a selection among Numerator,
Denominator and BPM, never None; it maps Numerator to Denominator,
Denominator to BPM and BPM to Numerator, and three Tabs from a selection
other than None give back the starting field. -/
theorem tab_cycles_selection (now : Time) (m : model)
    (hs : m.screen = screen.settingsScreen)
    (hsel : m.selected = noneElement ∨ m.selected = timeSignatureTopElement
      ∨ m.selected = timeSignatureBottomElement ∨ m.selected = bpmElement) :
    ∃ m1, Update now m (Msg.key Key.tab) = some (m1, Cmd.none)
      ∧ m1.screen = screen.settingsScreen
      ∧ (m1.selected = timeSignatureTopElement ∨ m1.selected = timeSignatureBottomElement
          ∨ m1.selected = bpmElement)
      ∧ m1.selected ≠ noneElement
      ∧ (m.selected = timeSignatureTopElement → m1.selected = timeSignatureBottomElement)
      ∧ (m.selected = timeSignatureBottomElement → m1.selected = bpmElement)
      ∧ (m.selected = bpmElement → m1.selected = timeSignatureTopElement)
      ∧ (m.selected ≠ noneElement → ∀ t1 t2 t3 : Time,
          (runMsgs m [(t1, Msg.key Key.tab), (t2, Msg.key Key.tab), (t3, Msg.key Key.tab)]).map
            (fun m3 => m3.selected) = some m.selected) := by
  refine ⟨{ m with selected := Int.tmod m.selected (numberOfElement - 1) + 1 }, ?_, hs, ?_⟩
  · simp [Update, keyMain, keySettings, hs]
  · rcases hsel with h | h | h | h <;>
      simp [h, noneElement, timeSignatureTopElement, timeSignatureBottomElement, bpmElement,
        numberOfElement, runMsgs, Update, keyMain, keySettings, hs] <;> decide

/-- C10 at a concrete model: three Tabs from the BPM field return to it. -/
theorem tab_cycles_selection_witness :
    (runMsgs (settingsOnBpm 120)
        [(0, Msg.key Key.tab), (1, Msg.key Key.tab), (2, Msg.key Key.tab)]).map
      (fun m3 => m3.selected) = some (settingsOnBpm 120).selected := by
  obtain ⟨_, _, _, _, _, _, _, _, h⟩ :=
    tab_cycles_selection 0 (settingsOnBpm 120) rfl (Or.inr (Or.inr (Or.inr rfl)))
  exact h (by decide) 0 1 2

/-- C11 (fails on the code): after five taps and the change to the settings
screen, a tap handled on the settings screen returns the retime command,
which arms the stopped ticker again with a period of 500 ms. -/
theorem tap_on_settings_rearms_timer :
    runMsgs initialModel tapInSettings = some settingsAfterFiveTaps
    ∧ settingsAfterFiveTaps.screen = screen.settingsScreen
    ∧ Update 63900000002500000000 settingsAfterFiveTaps (Msg.key Key.tap)
      = some ({ settingsAfterFiveTaps with bpm := 120, lastTap := 63900000002500000000 },
          Cmd.updateTicker
            { settingsAfterFiveTaps with bpm := 120, lastTap := 63900000002500000000 })
    ∧ Cmd.armsTimer (Cmd.updateTicker
        { settingsAfterFiveTaps with bpm := 120, lastTap := 63900000002500000000 }) = true
    ∧ Cmd.run (Cmd.updateTicker
        { settingsAfterFiveTaps with bpm := 120, lastTap := 63900000002500000000 })
        { running := false, period := Second }
      = some ({ running := true, period := 500 * Millisecond }, []) := by
  decide

/-- C12: when the average a computed by the Tap case (line 249) is zero,
Update only records the tap: it returns the model with the shifted window and
the new lastTap, bpm unchanged, and no command. -/
theorem tap_with_zero_average_ignored (now : Time) (m : model)
    (ha : Int.tdiv (tapLoop (timeSince now m.lastTap) m.tapsAverage).2 tapsLength = 0) :
    Update now m (Msg.key Key.tap)
      = some ({ m with tapsAverage := (tapLoop (timeSince now m.lastTap) m.tapsAverage).1,
                       lastTap := now }, Cmd.none)
    ∧ ∀ r, Update now m (Msg.key Key.tap) = some r → r.1.bpm = m.bpm ∧ r.2 = Cmd.none := by
  have h : Update now m (Msg.key Key.tap)
      = some ({ m with tapsAverage := (tapLoop (timeSince now m.lastTap) m.tapsAverage).1,
                       lastTap := now }, Cmd.none) := by
    simp [Update, keyMain, tapCase, ha, keySettings_tap]
  refine ⟨h, ?_⟩
  intro r hr
  rw [h] at hr
  cases hr
  exact ⟨rfl, rfl⟩

/-- C12 at the initial model: the first tap finds a zero-filled window and
changes no tempo. -/
theorem tap_with_zero_average_ignored_witness :
    Update 63900000000000000000 initialModel (Msg.key Key.tap)
      = some ({ initialModel with
          tapsAverage := (tapLoop (timeSince 63900000000000000000 initialModel.lastTap)
            initialModel.tapsAverage).1,
          lastTap := 63900000000000000000 }, Cmd.none) :=
  (tap_with_zero_average_ignored 63900000000000000000 initialModel (by decide)).1

/-- C13: in every reachable state both time-signature fields are within
1..16; Up at 16 and Down at 1 on the selected field return the model
unchanged; and a key handled with one of the two fields selected leaves the
other field as it was. -/
theorem time_signature_fields_saturate (m : model) (hr : Reachable m) :
    (1 ≤ m.timeSignatureTop ∧ m.timeSignatureTop ≤ 16)
    ∧ (1 ≤ m.timeSignatureBottom ∧ m.timeSignatureBottom ≤ 16)
    ∧ (∀ now : Time,
        (m.selected = timeSignatureTopElement → m.timeSignatureTop = 16 →
            Update now m (Msg.key Key.up) = some (m, Cmd.none))
        ∧ (m.selected = timeSignatureTopElement → m.timeSignatureTop = 1 →
            Update now m (Msg.key Key.down) = some (m, Cmd.none))
        ∧ (m.selected = timeSignatureBottomElement → m.timeSignatureBottom = 16 →
            Update now m (Msg.key Key.up) = some (m, Cmd.none))
        ∧ (m.selected = timeSignatureBottomElement → m.timeSignatureBottom = 1 →
            Update now m (Msg.key Key.down) = some (m, Cmd.none)))
    ∧ (∀ (now : Time) (k : Key), ∃ r, Update now m (Msg.key k) = some r
        ∧ (m.selected = timeSignatureTopElement →
            r.1.timeSignatureBottom = m.timeSignatureBottom)
        ∧ (m.selected = timeSignatureBottomElement →
            r.1.timeSignatureTop = m.timeSignatureTop)) := by
  obtain ⟨_, ht, hb, _⟩ := reachable_sigSelInv m hr
  refine ⟨ht, hb, fun now => update_saturates now m, ?_⟩
  intro now k
  obtain ⟨r, h, _⟩ := update_key_signature now m k
  exact ⟨r, h, update_up_down_other_field now m k r h⟩

/-- C13 at the initial model: the signature 4/4 is within the ranges. -/
theorem time_signature_fields_saturate_witness :
    (1 ≤ initialModel.timeSignatureTop ∧ initialModel.timeSignatureTop ≤ 16)
    ∧ (1 ≤ initialModel.timeSignatureBottom ∧ initialModel.timeSignatureBottom ≤ 16) :=
  ⟨(time_signature_fields_saturate initialModel ⟨[], rfl⟩).1,
   (time_signature_fields_saturate initialModel ⟨[], rfl⟩).2.1⟩

/-- C14: whenever Update changes timeSignatureTop the model was on the
settings screen with the numerator selected, whenever it changes
timeSignatureBottom the model was on the settings screen with the
denominator selected, and on the main screen no message changes either. -/
theorem time_signature_changes_only_when_selected (now : Time) (m : model) (msg : Msg)
    (r : model × Cmd) (h : Update now m msg = some r) :
    (r.1.timeSignatureTop ≠ m.timeSignatureTop →
        m.screen = screen.settingsScreen ∧ m.selected = timeSignatureTopElement)
    ∧ (r.1.timeSignatureBottom ≠ m.timeSignatureBottom →
        m.screen = screen.settingsScreen ∧ m.selected = timeSignatureBottomElement)
    ∧ (m.screen = screen.mainScreen →
        r.1.timeSignatureTop = m.timeSignatureTop
          ∧ r.1.timeSignatureBottom = m.timeSignatureBottom) := by
  obtain ⟨h1, h2⟩ := update_signature_frame now m msg r h
  refine ⟨h1, h2, fun hm => ⟨?_, ?_⟩⟩
  · by_contra hn
    have := (h1 hn).1
    rw [hm] at this
    cases this
  · by_contra hn
    have := (h2 hn).1
    rw [hm] at this
    cases this

/-- C14 at a concrete step: Up on the settings screen with the numerator
selected changes the numerator from 4 to 5. -/
theorem time_signature_changes_only_when_selected_witness :
    settingsOnTop.screen = screen.settingsScreen
      ∧ settingsOnTop.selected = timeSignatureTopElement :=
  (time_signature_changes_only_when_selected 0 settingsOnTop (Msg.key Key.up)
    ({ settingsOnTop with timeSignatureTop := 5 }, Cmd.none) (by decide)).1 (by decide)

/-- C15: a tap on a window w0, w1, w2, w3 leaves the window w1, w2, w3, d
with d the delta measured by this tap; the length stays 4 and lastTap
becomes the clock reading. -/
theorem tap_shifts_window (now : Time) (m : model) (w0 w1 w2 w3 : Duration)
    (hw : m.tapsAverage = [w0, w1, w2, w3]) :
    ∃ r, Update now m (Msg.key Key.tap) = some r
      ∧ r.1.tapsAverage = [w1, w2, w3, timeSince now m.lastTap]
      ∧ r.1.tapsAverage.length = 4
      ∧ r.1.lastTap = now := by
  obtain ⟨c, hc⟩ := update_tap now m
  have hs := tapModel_shift now m w0 w1 w2 w3 hw
  refine ⟨_, hc, hs, ?_, (tapModel_window now m).2⟩
  show (tapModel now m).tapsAverage.length = 4
  rw [hs]
  rfl

/-- C15 at the initial model: the first tap shifts its delta into the
zero-filled window. -/
theorem tap_shifts_window_witness :
    ∃ r, Update 63900000000000000000 initialModel (Msg.key Key.tap) = some r
      ∧ r.1.tapsAverage = [0, 0, 0, timeSince 63900000000000000000 initialModel.lastTap]
      ∧ r.1.tapsAverage.length = 4
      ∧ r.1.lastTap = 63900000000000000000 :=
  tap_shifts_window 63900000000000000000 initialModel 0 0 0 0 rfl

/-- C16: the Escape key returns the model unchanged, with the quit command
on the main screen and with the screen change to Main, not the quit command,
on the settings screen. -/
theorem escape_quits_on_main_and_leaves_settings (now : Time) (m : model) :
    (m.screen = screen.mainScreen → Update now m (Msg.key Key.escape) = some (m, Cmd.quit))
    ∧ (m.screen = screen.settingsScreen →
        Update now m (Msg.key Key.escape) = some (m, Cmd.screenChange screen.mainScreen)
        ∧ Update now m (Msg.key Key.escape) ≠ some (m, Cmd.quit)) := by
  refine ⟨fun h => by simp [Update, keyMain, h], fun h => ?_⟩
  have e : Update now m (Msg.key Key.escape) = some (m, Cmd.screenChange screen.mainScreen) := by
    simp [Update, keyMain, h]
  exact ⟨e, by rw [e]; simp⟩

/-- C16 at the initial model (main screen): Escape quits. -/
theorem escape_quits_on_main_and_leaves_settings_witness :
    Update 0 initialModel (Msg.key Key.escape) = some (initialModel, Cmd.quit) :=
  (escape_quits_on_main_and_leaves_settings 0 initialModel).1 rfl

/-- C17 (as stated, fails): after one metronome tick the beat is 1, and the
screen change that enters the settings screen leaves it at 1, not 0. -/
theorem entering_settings_keeps_beat_one :
    runMsgs initialModel [(1000000000, Msg.metronomeTick)]
      = some { initialModel with beat := 1 }
    ∧ Update 1500000000 { initialModel with beat := 1 }
        (Msg.screenChange screen.settingsScreen)
      = some ({ initialModel with beat := 1, screen := screen.settingsScreen, selected := 1 },
          Cmd.stopTicker
            { initialModel with beat := 1, screen := screen.settingsScreen, selected := 1 })
    ∧ ({ initialModel with beat := 1, screen := screen.settingsScreen,
                           selected := 1 } : model).beat ≠ 0 := by
  decide

/-- C17 (amended): the screen change that enters the settings screen leaves
beat unchanged: the model it returns differs from the one it was given only
in screen (Settings) and selected (the numerator), and the command it
returns is the stop command. -/
theorem entering_settings_leaves_beat (now : Time) (m : model) :
    Update now m (Msg.screenChange screen.settingsScreen)
      = some ({ m with screen := screen.settingsScreen, selected := timeSignatureTopElement },
          Cmd.stopTicker
            { m with screen := screen.settingsScreen, selected := timeSignatureTopElement })
    ∧ ({ m with screen := screen.settingsScreen,
                selected := timeSignatureTopElement } : model).beat = m.beat
    ∧ ∀ tk : Ticker,
        Cmd.run (Cmd.stopTicker
            { m with screen := screen.settingsScreen, selected := timeSignatureTopElement }) tk
          = some ({ running := false, period := tk.period }, []) :=
  ⟨rfl, rfl, fun _ => rfl⟩

/-- C18: in every reachable state bpm and timeSignatureTop are at least 1,
so a metronome tick is handled without a division by zero; and whenever
bpm is at most 240 the retime command succeeds with the period 60 s / bpm,
which is at least 250 ms. -/
theorem no_division_by_zero_when_reachable (m : model) (hr : Reachable m) :
    1 ≤ m.bpm ∧ 1 ≤ m.timeSignatureTop
    ∧ (∀ now : Time, ∃ r, Update now m Msg.metronomeTick = some r)
    ∧ (m.bpm ≤ 240 →
        250 * Millisecond ≤ Minute / m.bpm
        ∧ ∀ tk : Ticker, ∃ r, updateTickerCmd m tk = some r
            ∧ r.2.1 = { running := true, period := Minute / m.bpm }) := by
  obtain ⟨hb, ht, _, _⟩ := reachable_sigSelInv m hr
  refine ⟨hb, ht.1, ?_, ?_⟩
  · intro now
    have hne : m.timeSignatureTop ≠ 0 := by omega
    exact ⟨({ m with beat := Int.tmod (wrap64 (m.beat + 1)) m.timeSignatureTop },
        Cmd.metronomeTicker
          { m with beat := Int.tmod (wrap64 (m.beat + 1)) m.timeSignatureTop }),
      by simp [Update, hne]⟩
  · intro h240
    have hpos : 0 < m.bpm := by omega
    have hge : 250 * Millisecond ≤ Minute / m.bpm := by
      apply Int.le_ediv_of_mul_le hpos
      simp only [Millisecond, Minute]
      omega
    refine ⟨hge, fun tk => ?_⟩
    have hdiv : Int.tdiv Minute m.bpm = Minute / m.bpm :=
      Int.tdiv_eq_ediv (by decide) (by omega)
    have hne : m.bpm ≠ 0 := by omega
    have hnle : ¬ Minute / m.bpm ≤ 0 :=
      not_le.mpr (lt_of_lt_of_le (by decide) hge)
    exact ⟨({ m with metronomeOn := true }, { running := true, period := Minute / m.bpm },
        Option.none), by simp [updateTickerCmd, Ticker.Reset, hne, hdiv, hnle], rfl⟩

/-- C18 at the initial model: the interval at 60 bpm is at least 250 ms. -/
theorem no_division_by_zero_when_reachable_witness :
    250 * Millisecond ≤ Minute / initialModel.bpm :=
  ((no_division_by_zero_when_reachable initialModel ⟨[], rfl⟩).2.2.2 (by decide)).1

/-- C19: in every reachable state the selection is None exactly when the
screen is Main, and on the settings screen it is one of the three fields. -/
theorem selection_none_iff_main (m : model) (hr : Reachable m) :
    (m.selected = noneElement ↔ m.screen = screen.mainScreen)
    ∧ (m.screen = screen.settingsScreen →
        m.selected = timeSignatureTopElement ∨ m.selected = timeSignatureBottomElement
          ∨ m.selected = bpmElement) := by
  obtain ⟨_, _, _, hsel⟩ := reachable_sigSelInv m hr
  rcases hsel with ⟨hm, hs⟩ | ⟨hset, hs⟩
  · refine ⟨⟨fun _ => hm, fun _ => hs⟩, fun h => ?_⟩
    rw [hm] at h
    cases h
  · refine ⟨⟨fun h => ?_, fun h => ?_⟩, fun _ => hs⟩
    · rcases hs with h1 | h1 | h1 <;> rw [h1] at h <;> exact absurd h (by decide)
    · rw [hset] at h
      cases h

/-- C19 at the initial model. -/
theorem selection_none_iff_main_witness :
    (initialModel.selected = noneElement ↔ initialModel.screen = screen.mainScreen) :=
  (selection_none_iff_main initialModel ⟨[], rfl⟩).1

/-- C20 (fails on the code): after a resize to 19 columns the progress width
is 7, the block width 7 / 4 - 2 is -1, and viewMetronomeBlocks panics on the
negative repeat count; likewise with numerator 16 at progress width 31 (a
terminal of 43 columns). -/
theorem narrow_terminal_negative_repeat :
    Update 0 initialModel (Msg.windowSize 19) = some (resizedTo19, Cmd.none)
    ∧ blockWidth resizedTo19 = -1
    ∧ viewMetronomeBlocks resizedTo19 = Option.none
    ∧ blockWidth { initialModel with timeSignatureTop := 16, progressWidth := 31 } = -1
    ∧ viewMetronomeBlocks { initialModel with timeSignatureTop := 16, progressWidth := 31 }
      = Option.none := by
  decide
